import Mathlib

/-!
Verification of fastscapelib against its natural-language specification.

This file gives a shallow embedding, in Lean 4, of the parts of the
fastscapelib sources relevant to the frozen claims:

* `grid_node_index_iterator` / `grid_node_indices`
  (src/include/fastscapelib/utils/iterators.hpp, first document);
* the work-in-progress `flow_graph` class
  (second document embedded in src/include/fastscapelib/utils/iterators.hpp);
* `healpix_grid` (src/include/fastscapelib/grid/healpix_grid.hpp);
* the Python flow-operator constructor declarations (src/unnamed/part_007).

Machine integers index arrays whose sizes are tiny in every claim, so node
indices are modelled as `Nat` (the C++ `size_type` is unsigned and no claim
involves wrap-around).  Loops are modelled with explicit fuel and the fuel is
proved sufficient in the lemmas.  Code of the repository that is missing from
the sources (flow_operator.hpp and the concrete operator implementations) is
modelled from the specification; each such definition carries a doc comment
starting with `Modelled from the spec:`.
-/

namespace Fastscapelib

/-! ## grid_node_index_iterator (iterators.hpp, first document)

The iterator stores `m_idx`, a reference to the grid and a filter functor.
Only the grid size is read from the grid, so the grid is represented here by
its size `N : Nat` and the filter by `f : Nat → Bool`.
-/

/--
The body of `grid_node_index_iterator::operator++`:

  do { ++m_idx; } while ((!m_filter_func(m_grid, m_idx)) && (m_idx < m_grid.size()));

`advanceFromFuel f N fuel j` is the value of `m_idx` when the do-while loop
exits, given that the loop has just incremented `m_idx` to `j`.  The C++ `&&`
evaluates its left operand first, so the loop keeps running exactly while
`f j = false` and `j < N`; the fuel only bounds the iteration count and
`N + 1` is proved sufficient below.
-/
def advanceFromFuel (f : Nat → Bool) (N : Nat) : Nat → Nat → Nat
  | 0, j => j
  | fuel + 1, j => if f j = true ∨ N ≤ j then j else advanceFromFuel f N fuel (j + 1)

/-- `grid_node_index_iterator::operator++` starting at `m_idx = i`. -/
def advanceIdx (f : Nat → Bool) (N : Nat) (i : Nat) : Nat :=
  advanceFromFuel f N (N + 1) (i + 1)

/--
The indices at which the do-while loop of `operator++` evaluates the filter
functor: the loop condition `(!f(m_idx)) && (m_idx < size)` calls `f` at every
value taken by `m_idx`, including the one at which the loop stops (the `&&`
evaluates `!f(m_idx)` before the bound check `m_idx < size`).
-/
def advanceCallsFuel (f : Nat → Bool) (N : Nat) : Nat → Nat → List Nat
  | 0, _ => []
  | fuel + 1, j => if f j = true ∨ N ≤ j then [j] else j :: advanceCallsFuel f N fuel (j + 1)

/--
The `grid_node_index_iterator` constructor:

  m_idx = position; if ((position == 0) && !m_filter_func(grid, position)) ++m_idx;

Note that when the filter rejects position 0 the constructor merely increments
`m_idx` to 1 without testing the filter again.
-/
def iterStartIdx (f : Nat → Bool) (_N : Nat) (position : Nat) : Nat :=
  if position = 0 ∧ f 0 = false then 1 else position

/-- The `m_idx` of `grid_node_indices::begin()` (constructed with position 0). -/
def beginIdx (f : Nat → Bool) (N : Nat) : Nat :=
  iterStartIdx f N 0

/-- The `m_idx` of `grid_node_indices::end()` (constructed with position `size()`). -/
def endIdx (f : Nat → Bool) (N : Nat) : Nat :=
  iterStartIdx f N N

/--
Forward traversal `for (it = begin; it != end; ++it) yield *it`, starting from
`m_idx = i`: iterator equality compares `m_idx` only.  Fuel-bounded; fuel
`N + 1` is proved sufficient below.
-/
def traverseFrom (f : Nat → Bool) (N : Nat) : Nat → Nat → List Nat
  | 0, _ => []
  | fuel + 1, i => if i = endIdx f N then [] else i :: traverseFrom f N fuel (advanceIdx f N i)

/-- The list of indices yielded by a full forward traversal of `grid_node_indices`. -/
def gridNodeIndicesFwd (f : Nat → Bool) (N : Nat) : List Nat :=
  traverseFrom f N (N + 1) (beginIdx f N)

/-- The filter-call indices of the increments performed during a forward
traversal starting from `m_idx = i`. -/
def traverseCallsFrom (f : Nat → Bool) (N : Nat) : Nat → Nat → List Nat
  | 0, _ => []
  | fuel + 1, i =>
    if i = endIdx f N then []
    else advanceCallsFuel f N (N + 1) (i + 1) ++ traverseCallsFrom f N fuel (advanceIdx f N i)

/--
All indices at which the filter functor is evaluated during a full forward
traversal of `grid_node_indices` over a grid of size `N`: the `begin()`
constructor always calls `f` at position 0, the `end()` constructor calls it
at position 0 only when `N = 0` (its `position == 0` test), and every
`operator++` contributes the calls of its do-while loop.
-/
def filterCallTrace (f : Nat → Bool) (N : Nat) : List Nat :=
  0 :: ((if N = 0 then [0] else []) ++ traverseCallsFrom f N (N + 1) (beginIdx f N))

/-! ### Lemmas about the iterator loops -/

theorem le_advanceFromFuel (f : Nat → Bool) (N : Nat) :
    ∀ fuel j, j ≤ advanceFromFuel f N fuel j := by
  intro fuel
  induction fuel with
  | zero => intro j; simp [advanceFromFuel]
  | succ fuel ih =>
    intro j
    simp only [advanceFromFuel]
    split
    · exact Nat.le_refl j
    · exact Nat.le_trans (Nat.le_succ j) (ih (j + 1))

/-- Characterization of the do-while loop of `operator++`: with sufficient
fuel it stops at the first index `m ≥ j` with `f m = true` or `m = N`. -/
theorem advanceFromFuel_spec (f : Nat → Bool) (N : Nat) :
    ∀ fuel j, j ≤ N → N + 1 - j ≤ fuel →
      j ≤ advanceFromFuel f N fuel j ∧ advanceFromFuel f N fuel j ≤ N ∧
      (f (advanceFromFuel f N fuel j) = true ∨ advanceFromFuel f N fuel j = N) ∧
      (∀ l, j ≤ l → l < advanceFromFuel f N fuel j → f l = false) := by
  intro fuel
  induction fuel with
  | zero => intro j hj hfuel; omega
  | succ fuel ih =>
    intro j hj hfuel
    simp only [advanceFromFuel]
    split
    · rename_i hstop
      refine ⟨Nat.le_refl j, hj, ?_, ?_⟩
      · rcases hstop with h | h
        · exact Or.inl h
        · exact Or.inr (Nat.le_antisymm hj h)
      · intro l hl1 hl2; omega
    · rename_i hgo
      push_neg at hgo
      obtain ⟨hfj, hjN⟩ := hgo
      obtain ⟨h1, h2, h3, h4⟩ := ih (j + 1) hjN (by omega)
      refine ⟨by omega, h2, h3, ?_⟩
      intro l hl1 hl2
      rcases Nat.eq_or_lt_of_le hl1 with h | h
      · rw [← h]
        exact Bool.not_eq_true _ ▸ (by simpa using hfj)
      · exact h4 l h hl2

theorem advanceIdx_spec (f : Nat → Bool) (N : Nat) (i : Nat) (hi : i < N) :
    i < advanceIdx f N i ∧ advanceIdx f N i ≤ N ∧
    (f (advanceIdx f N i) = true ∨ advanceIdx f N i = N) ∧
    (∀ l, i < l → l < advanceIdx f N i → f l = false) := by
  have h := advanceFromFuel_spec f N (N + 1) (i + 1) (by omega) (by omega)
  unfold advanceIdx
  exact ⟨by omega, h.2.1, h.2.2.1, fun l hl1 hl2 => h.2.2.2 l (by omega) hl2⟩

theorem endIdx_of_pos (f : Nat → Bool) (N : Nat) (hN : 1 ≤ N) : endIdx f N = N := by
  simp only [endIdx, iterStartIdx]
  split
  · omega
  · rfl

/-- Every index yielded from current position `i` is at least `i`. -/
theorem mem_traverseFrom_ge (f : Nat → Bool) (N : Nat) :
    ∀ fuel i k, k ∈ traverseFrom f N fuel i → i ≤ k := by
  intro fuel
  induction fuel with
  | zero => intro i k hk; simp [traverseFrom] at hk
  | succ fuel ih =>
    intro i k hk
    simp only [traverseFrom] at hk
    split at hk
    · simp at hk
    · rcases List.mem_cons.mp hk with h | h
      · omega
      · have h1 := ih (advanceIdx f N i) k h
        have h2 : i + 1 ≤ advanceIdx f N i := le_advanceFromFuel f N (N + 1) (i + 1)
        omega

/-- The yielded indices are strictly increasing. -/
theorem traverseFrom_chain (f : Nat → Bool) (N : Nat) :
    ∀ fuel i, List.Chain' (· < ·) (traverseFrom f N fuel i) := by
  intro fuel
  induction fuel with
  | zero => intro i; simp [traverseFrom]
  | succ fuel ih =>
    intro i
    simp only [traverseFrom]
    split
    · exact List.chain'_nil
    · refine List.chain'_cons'.mpr ⟨?_, ih (advanceIdx f N i)⟩
      intro b hb
      have hmem : b ∈ traverseFrom f N fuel (advanceIdx f N i) :=
        List.mem_of_mem_head? hb
      have h1 := mem_traverseFrom_ge f N fuel (advanceIdx f N i) b hmem
      have h2 : i + 1 ≤ advanceIdx f N i := le_advanceFromFuel f N (N + 1) (i + 1)
      omega

/-- Membership in the forward traversal from position `i ≤ N` (grid size at
least 1): the current position is always yielded, and beyond it exactly the
filter-accepted indices below `N` are yielded. -/
theorem traverseFrom_mem (f : Nat → Bool) (N : Nat) (hN : 1 ≤ N) :
    ∀ fuel i, i ≤ N → N + 1 - i ≤ fuel →
      ∀ k, k ∈ traverseFrom f N fuel i ↔
        (k = i ∧ i < N) ∨ (i < k ∧ k < N ∧ f k = true) := by
  intro fuel
  induction fuel with
  | zero => intro i hi hfuel; omega
  | succ fuel ih =>
    intro i hi hfuel k
    simp only [traverseFrom]
    rw [endIdx_of_pos f N hN]
    split
    · rename_i heq
      subst heq
      simp only [List.not_mem_nil, false_iff]
      omega
    · rename_i hne
      have hiN : i < N := by omega
      obtain ⟨ha1, ha2, ha3, ha4⟩ := advanceIdx_spec f N i hiN
      rw [List.mem_cons]
      rw [ih (advanceIdx f N i) ha2 (by omega) k]
      constructor
      · rintro (h | ⟨hk, hm⟩ | ⟨h1, h2, h3⟩)
        · exact Or.inl ⟨h, hiN⟩
        · subst hk
          have hf : f (advanceIdx f N i) = true := by
            rcases ha3 with h | h
            · exact h
            · omega
          exact Or.inr ⟨ha1, by omega, hf⟩
        · exact Or.inr ⟨by omega, h2, h3⟩
      · rintro (⟨hk, _⟩ | ⟨h1, h2, h3⟩)
        · exact Or.inl hk
        · rcases Nat.lt_trichotomy k (advanceIdx f N i) with h | h | h
          · have := ha4 k h1 h
            rw [this] at h3
            exact absurd h3 (by simp)
          · subst h
            exact Or.inr (Or.inl ⟨rfl, h2⟩)
          · exact Or.inr (Or.inr ⟨h, h2, h3⟩)

/-- On an empty grid the traversal yields nothing: both `begin()` and `end()`
are constructed with the same bump-at-position-0 rule, so they compare equal. -/
theorem gridNodeIndicesFwd_zero (f : Nat → Bool) : gridNodeIndicesFwd f 0 = [] := by
  unfold gridNodeIndicesFwd traverseFrom
  rcases hf : f 0 <;> simp [beginIdx, endIdx, iterStartIdx, hf]

/-- The do-while loop of `operator++` entered at `m_idx = j ≤ N` only calls
the filter at indices between `j` and `N`. -/
theorem advanceCallsFuel_bound (f : Nat → Bool) (N : Nat) :
    ∀ fuel j, j ≤ N → ∀ c ∈ advanceCallsFuel f N fuel j, j ≤ c ∧ c ≤ N := by
  intro fuel
  induction fuel with
  | zero => intro j hj c hc; simp [advanceCallsFuel] at hc
  | succ fuel ih =>
    intro j hj c hc
    simp only [advanceCallsFuel] at hc
    split at hc
    · simp at hc; omega
    · rename_i hgo
      push_neg at hgo
      rcases List.mem_cons.mp hc with h | h
      · omega
      · have := ih (j + 1) hgo.2 c h
        omega

/-- The index at which the do-while loop stops is among the indices at which
it evaluated the filter. -/
theorem advanceFromFuel_mem_calls (f : Nat → Bool) (N : Nat) :
    ∀ fuel j, j ≤ N → N + 1 - j ≤ fuel →
      advanceFromFuel f N fuel j ∈ advanceCallsFuel f N fuel j := by
  intro fuel
  induction fuel with
  | zero => intro j hj hfuel; omega
  | succ fuel ih =>
    intro j hj hfuel
    simp only [advanceFromFuel, advanceCallsFuel]
    split
    · exact List.mem_singleton.mpr rfl
    · rename_i hgo
      push_neg at hgo
      exact List.mem_cons_of_mem j (ih (j + 1) hgo.2 (by omega))

/-- All filter calls of the increments of a traversal over a grid of size
`N ≥ 1` are at indices at most `N`. -/
theorem traverseCallsFrom_bound (f : Nat → Bool) (N : Nat) (hN : 1 ≤ N) :
    ∀ fuel i, i ≤ N → ∀ c ∈ traverseCallsFrom f N fuel i, c ≤ N := by
  intro fuel
  induction fuel with
  | zero => intro i hi c hc; simp [traverseCallsFrom] at hc
  | succ fuel ih =>
    intro i hi c hc
    simp only [traverseCallsFrom] at hc
    split at hc
    · simp at hc
    · rename_i hne
      rw [endIdx_of_pos f N hN] at hne
      have hiN : i < N := by omega
      rcases List.mem_append.mp hc with h | h
      · exact (advanceCallsFuel_bound f N (N + 1) (i + 1) (by omega) c h).2
      · exact ih (advanceIdx f N i) (advanceIdx_spec f N i hiN).2.1 c h

/-- When the traversal starts strictly below `N`, some increment runs to the
end of the index range and evaluates the filter at index `N` itself. -/
theorem traverseCallsFrom_reaches (f : Nat → Bool) (N : Nat) :
    ∀ fuel i, i < N → N + 1 - i ≤ fuel → N ∈ traverseCallsFrom f N fuel i := by
  intro fuel
  induction fuel with
  | zero => intro i hi hfuel; omega
  | succ fuel ih =>
    intro i hi hfuel
    have hN : 1 ≤ N := by omega
    simp only [traverseCallsFrom]
    rw [endIdx_of_pos f N hN]
    split
    · omega
    · obtain ⟨ha1, ha2, _, _⟩ := advanceIdx_spec f N i hi
      rcases Nat.eq_or_lt_of_le ha2 with heq | hlt
      · refine List.mem_append.mpr (Or.inl ?_)
        have hm := advanceFromFuel_mem_calls f N (N + 1) (i + 1) (by omega) (by omega)
        have h2 : advanceFromFuel f N (N + 1) (i + 1) = N := heq
        rw [h2] at hm
        exact hm
      · exact List.mem_append.mpr (Or.inr (ih (advanceIdx f N i) hlt (by omega)))

/-! ### Claim theorems for grid_node_indices iteration -/

/--
Claim C9, original form, is false on the code: when the filter rejects index
0, the `begin()` constructor advances to index 1 without testing the filter
there, so index 1 is yielded even when the filter rejects it.  Concretely, on
a grid of size 2 with the always-false filter the forward traversal yields
the index 1, although no index satisfies the filter.
-/
theorem c9_counterexample_spurious_index :
    1 ∈ gridNodeIndicesFwd (fun _ => false) 2 ∧
      (fun _ => false : Nat → Bool) 1 = false := by
  constructor
  · decide
  · rfl

/--
Claim C9 (amended): forward iteration over `grid_node_indices` of a grid of
size `N` yields indices in strictly increasing order, each at most once.  When
the filter accepts index 0, the yielded indices are exactly those `i < N` with
`f i = true`.  When the filter rejects index 0, `begin()` is bumped to index 1
without consulting the filter: the yielded indices are then index 1 (yielded
whenever `2 ≤ N`, whether or not the filter accepts it) together with exactly
the indices `1 < i < N` with `f i = true`.
-/
theorem c9_grid_node_indices_forward (f : Nat → Bool) (N : Nat) :
    List.Chain' (· < ·) (gridNodeIndicesFwd f N) ∧
    (f 0 = true → ∀ k, k ∈ gridNodeIndicesFwd f N ↔ (k < N ∧ f k = true)) ∧
    (f 0 = false → ∀ k, k ∈ gridNodeIndicesFwd f N ↔
      (k = 1 ∧ 2 ≤ N) ∨ (1 < k ∧ k < N ∧ f k = true)) := by
  refine ⟨traverseFrom_chain f N (N + 1) (beginIdx f N), ?_, ?_⟩
  · intro hf0 k
    rcases Nat.eq_zero_or_pos N with hN | hN
    · subst hN
      rw [gridNodeIndicesFwd_zero f]
      simp only [List.not_mem_nil, false_iff]
      omega
    · have hb : beginIdx f N = 0 := by simp [beginIdx, iterStartIdx, hf0]
      unfold gridNodeIndicesFwd
      rw [hb, traverseFrom_mem f N hN (N + 1) 0 (by omega) (by omega) k]
      constructor
      · rintro (⟨hk, hN'⟩ | ⟨h1, h2, h3⟩)
        · exact ⟨by omega, hk ▸ hf0⟩
        · exact ⟨h2, h3⟩
      · rintro ⟨h1, h2⟩
        rcases Nat.eq_zero_or_pos k with hk | hk
        · exact Or.inl ⟨hk, hN⟩
        · exact Or.inr ⟨hk, h1, h2⟩
  · intro hf0 k
    rcases Nat.eq_zero_or_pos N with hN | hN
    · subst hN
      rw [gridNodeIndicesFwd_zero f]
      simp only [List.not_mem_nil, false_iff]
      omega
    · have hb : beginIdx f N = 1 := by simp [beginIdx, iterStartIdx, hf0]
      unfold gridNodeIndicesFwd
      rw [hb, traverseFrom_mem f N hN (N + 1) 1 (by omega) (by omega) k]
      constructor
      · rintro (⟨hk, hN'⟩ | ⟨h1, h2, h3⟩)
        · exact Or.inl ⟨hk, by omega⟩
        · exact Or.inr ⟨h1, h2, h3⟩
      · rintro (⟨hk, hN'⟩ | ⟨h1, h2, h3⟩)
        · exact Or.inl ⟨hk, by omega⟩
        · exact Or.inr ⟨h1, h2, h3⟩

/-- Witness for the amended claim C9 at a concrete grid and filter: size 5,
filter accepting the even indices; the traversal yields exactly 0, 2 and 4. -/
theorem c9_grid_node_indices_forward_witness :
    (2 ∈ gridNodeIndicesFwd (fun i => decide (i % 2 = 0)) 5 ↔
      (2 < 5 ∧ decide (2 % 2 = 0) = true)) ∧
    List.Chain' (· < ·) (gridNodeIndicesFwd (fun i => decide (i % 2 = 0)) 5) :=
  ⟨(c9_grid_node_indices_forward (fun i => decide (i % 2 = 0)) 5).2.1 (by decide) 2,
   (c9_grid_node_indices_forward (fun i => decide (i % 2 = 0)) 5).1⟩

/--
Claim C10, original form, is false on the code: the condition of the do-while
loop in `operator++` evaluates `!m_filter_func(m_grid, m_idx)` before the
bound check `m_idx < m_grid.size()`, so the final increment of a traversal
evaluates the filter at index `N` (one past the last node).  Concretely, on a
grid of size 1 with the always-true filter, the filter is invoked at index 1.
-/
theorem c10_counterexample_call_at_size :
    1 ∈ filterCallTrace (fun _ => true) 1 ∧ ¬(1 < 1) := by
  constructor
  · decide
  · omega

/--
Claim C10 (amended): during a forward traversal of `grid_node_indices` over a
grid of size `N`, every invocation of the filter predicate is at an index at
most `N`; the bound is tight, since the filter is invoked at index `N` itself
whenever the traversal body runs (the filter accepts index 0, or `2 ≤ N`).
-/
theorem c10_filter_call_indices (f : Nat → Bool) (N : Nat) :
    (∀ c ∈ filterCallTrace f N, c ≤ N) ∧
    (f 0 = true ∨ 2 ≤ N → N ∈ filterCallTrace f N) := by
  rcases Nat.eq_zero_or_pos N with hN | hN
  · subst hN
    have htr : filterCallTrace f 0 = [0, 0] := by
      rcases hf : f 0 <;>
        simp [filterCallTrace, traverseCallsFrom, beginIdx, endIdx, iterStartIdx, hf]
    constructor
    · intro c hc
      rw [htr] at hc
      simp at hc
      omega
    · intro _
      rw [htr]
      exact List.mem_cons_self 0 _
  · have hend : (if N = 0 then [0] else ([] : List Nat)) = [] := by
      simp; omega
    constructor
    · intro c hc
      simp only [filterCallTrace, hend, List.nil_append] at hc
      rcases List.mem_cons.mp hc with h | h
      · omega
      · have hb : beginIdx f N ≤ N := by
          simp only [beginIdx, iterStartIdx]
          split <;> omega
        exact traverseCallsFrom_bound f N hN (N + 1) (beginIdx f N) hb c h
    · intro hrun
      have hb : beginIdx f N < N := by
        rcases hf : f 0 with _ | _
        · have h1 : beginIdx f N = 1 := by simp [beginIdx, iterStartIdx, hf]
          rcases hrun with h | h
          · rw [hf] at h
            exact absurd h (by simp)
          · omega
        · have h0 : beginIdx f N = 0 := by simp [beginIdx, iterStartIdx, hf]
          omega
      simp only [filterCallTrace, hend, List.nil_append]
      exact List.mem_cons_of_mem 0
        (traverseCallsFrom_reaches f N (N + 1) (beginIdx f N) hb (by omega))

/-- Witness for the amended claim C10 at a concrete grid and filter: size 1,
always-true filter; all calls are at indices at most 1 and index 1 is hit. -/
theorem c10_filter_call_indices_witness :
    (∀ c ∈ filterCallTrace (fun _ => true) 1, c ≤ 1) ∧
      1 ∈ filterCallTrace (fun _ => true) 1 :=
  ⟨(c10_filter_call_indices (fun _ => true) 1).1,
   (c10_filter_call_indices (fun _ => true) 1).2 (Or.inl rfl)⟩

/-! ## flow_graph (second document embedded in iterators.hpp)

The `flow_graph` class template is parameterized by the grid, an xtensor
selector and an implementation tag.  Here the implementation type, the
elevation array type and the two snapshot-map value types are abstracted as
type parameters `ι` (impl_type) and `ε` (data_array_type); the snapshot maps
`graph_impl_map` and `elevation_map` are association lists keyed by
`std::string`.  A flow operator is a record of the four capability flags
together with its `apply` and `save` member functions, exactly as they are
invoked by `flow_graph::update_routes`:

    op.apply(m_impl, elevation_copy);
    op.save(m_impl, m_graph_impl_snapshots, elevation_copy, m_elevation_snapshots);
-/

/-- The `flow_direction` enumeration (UNDEFINED, SINGLE, MULTI). -/
inductive FlowDirection where
  | undefined
  | single
  | multi
deriving DecidableEq, Repr

/-- `graph_impl_map`: the keyed store of flow-graph implementation snapshots. -/
abbrev GraphImplMap (ι : Type) : Type := List (String × ι)

/-- `elevation_map`: the keyed store of elevation snapshots. -/
abbrev ElevationMap (ε : Type) : Type := List (String × ε)

/-- A flow operator as consumed by `flow_graph`: the four capability flags of
the operator interface, plus the `apply` and `save` members called by
`update_routes`.  `apply` mutates the implementation and the elevation array
it is handed; `save` reads them and mutates the two snapshot stores. -/
structure FlowOperator (ι ε : Type) where
  op_name : String
  graph_updated : Bool
  elevation_updated : Bool
  in_flowdir : FlowDirection
  out_flowdir : FlowDirection
  apply : ι → ε → ι × ε
  save : ι → GraphImplMap ι → ε → ElevationMap ε → GraphImplMap ι × ElevationMap ε

/-- Modelled from the spec: `flow_operator_sequence::elevation_updated()`
(flow_operator.hpp is not among the sources) — whether any operator in the
sequence updates the working elevation. -/
def seqElevationUpdated {ι ε : Type} (ops : List (FlowOperator ι ε)) : Bool :=
  ops.any (·.elevation_updated)

/-- Modelled from the spec: `flow_operator_sequence::graph_updated()`
(flow_operator.hpp is not among the sources) — whether any operator in the
sequence updates the flow graph. -/
def seqGraphUpdated {ι ε : Type} (ops : List (FlowOperator ι ε)) : Bool :=
  ops.any (·.graph_updated)

/-- Modelled from the spec: `flow_operator_sequence::out_flowdir()`
(flow_operator.hpp is not among the sources) — the resulting output flow
direction of the sequence: the `out_flowdir` of the last operator that
defines one (is not UNDEFINED), or UNDEFINED when no operator does. -/
def seqOutFlowdir {ι ε : Type} (ops : List (FlowOperator ι ε)) : FlowDirection :=
  ops.foldl
    (fun cur op => if op.out_flowdir = FlowDirection.undefined then cur else op.out_flowdir)
    FlowDirection.undefined

/-- Modelled from the spec: the compatibility relation between an operator
and its successor — `A.out_flowdir` must equal `B.in_flowdir` or B must
accept UNDEFINED. -/
def flowdirCompatible {ι ε : Type} (a b : FlowOperator ι ε) : Bool :=
  decide (a.out_flowdir = b.in_flowdir) || decide (b.in_flowdir = FlowDirection.undefined)

/-- Modelled from the spec: the adjacent-pair validation performed when the
operator sequence is built (flow_operator.hpp is not among the sources) —
every adjacent pair must be flow-direction compatible. -/
def pairsCompatible {ι ε : Type} : List (FlowOperator ι ε) → Bool
  | [] => true
  | [_] => true
  | a :: b :: rest => flowdirCompatible a b && pairsCompatible (b :: rest)

/-- Modelled from the spec: building the `flow_operator_sequence` from the
operator list fails with an invalid-argument error when two adjacent
operators have incompatible flow-direction types. -/
def makeOperatorSequence {ι ε : Type} (ops : List (FlowOperator ι ε)) :
    Except String (List (FlowOperator ι ε)) :=
  if pairsCompatible ops then Except.ok ops
  else Except.error "invalid flow operator sequence: incompatible adjacent flow direction types"

/-- The state owned by a `flow_graph` object: the live implementation
`m_impl`, the snapshot graphs `m_graph_snapshots` (a map from name to the
snapshot flow graph, represented by its implementation payload), the
implementation snapshot map `m_graph_impl_snapshots`, the elevation snapshot
map `m_elevation_snapshots`, and the operator sequence `m_operators`. -/
structure FlowGraph (ι ε : Type) where
  m_impl : ι
  m_graph_snapshots : List (String × ι)
  m_graph_impl_snapshots : GraphImplMap ι
  m_elevation_snapshots : ElevationMap ε
  m_operators : List (FlowOperator ι ε)

/--
The `flow_graph` constructor: after storing the grid, impl and operators it
performs the two sanity checks (throwing `std::invalid_argument`), then runs
the snapshot pre-allocation loops — whose bodies are commented out in the
source, so the snapshot maps stay default-constructed (empty) — and the
hydrologically-corrected-elevation pre-allocation, which is an empty TODO.
-/
def flowGraphCtor {ι ε : Type} (impl : ι) (ops : List (FlowOperator ι ε)) :
    Except String (FlowGraph ι ε) :=
  if seqGraphUpdated ops = false then
    Except.error "must have at least one operator that updates the flow graph"
  else if seqOutFlowdir ops = FlowDirection.undefined then
    Except.error "must have at least one operator that defines the output flow direction type"
  else
    Except.ok
      { m_impl := impl
        m_graph_snapshots := []
        m_graph_impl_snapshots := []
        m_elevation_snapshots := []
        m_operators := ops }

/-- The state threaded through the operator loop of `update_routes`:
`(m_impl, elevation_copy, m_graph_impl_snapshots, m_elevation_snapshots)`. -/
abbrev PipelineState (ι ε : Type) : Type :=
  ι × ε × GraphImplMap ι × ElevationMap ε

/-- One iteration of the operator loop of `update_routes`:
`op.apply(m_impl, elevation_copy)` followed by
`op.save(m_impl, m_graph_impl_snapshots, elevation_copy, m_elevation_snapshots)`. -/
def pipelineStep {ι ε : Type} (s : PipelineState ι ε) (op : FlowOperator ι ε) :
    PipelineState ι ε :=
  let a := op.apply s.1 s.2.1
  let sv := op.save a.1 s.2.2.1 a.2 s.2.2.2
  (a.1, a.2, sv.1, sv.2)

/-- The operator loop `for (const auto& op : m_operators) { apply; save; }`. -/
def runOperators {ι ε : Type} (ops : List (FlowOperator ι ε)) (s : PipelineState ι ε) :
    PipelineState ι ε :=
  ops.foldl pipelineStep s

/-- The result of `flow_graph::update_routes`: the mutated flow-graph state,
the array the method returns, and the contents of the caller's elevation
buffer after the call. -/
structure UpdateRoutesResult (ι ε : Type) where
  graph : FlowGraph ι ε
  returned : ε
  caller_buffer : ε

/--
`flow_graph::update_routes(elevation)` as written in the source:
`elevation_copy` is bound directly to the caller's array (the copy into an
owned working buffer is a commented-out TODO, even when
`m_operators.elevation_updated()` holds), the operator loop applies and saves
every operator against that buffer, and `return elevation` returns the
caller's array.  Consequently the returned array and the caller's buffer are
both the final value left by the operators.
-/
def updateRoutes {ι ε : Type} (fg : FlowGraph ι ε) (elevation : ε) :
    UpdateRoutesResult ι ε :=
  let r := runOperators fg.m_operators
    (fg.m_impl, elevation, fg.m_graph_impl_snapshots, fg.m_elevation_snapshots)
  { graph :=
      { fg with
        m_impl := r.1
        m_graph_impl_snapshots := r.2.2.1
        m_elevation_snapshots := r.2.2.2 }
    returned := r.2.1
    caller_buffer := r.2.1 }

/-- Modelled from the spec and from the declaration
`FlowGraph.graph_snapshot(name) -> FlowGraph` in src/unnamed/part_007: look
the named snapshot graph up in the keyed snapshot store of the outer
flow-graph handle. -/
def graphSnapshot {ι ε : Type} (fg : FlowGraph ι ε) (name : String) : Option ι :=
  (fg.m_graph_snapshots.find? (fun kv => kv.1 == name)).map (fun kv => kv.2)

/-! ### Concrete operator instances

The concrete operator implementations (flow_router.hpp, flow_snapshot.hpp)
are not among the sources; these instances instantiate the operator template
so that the pipeline code can be evaluated on concrete inputs. -/

/-- A router-like test operator: updates the graph, defines SINGLE output
flow, leaves elevation alone.  Its `apply` increments the (numeric) impl. -/
def testRouterOperator : FlowOperator Int (List Int) where
  op_name := "test_router"
  graph_updated := true
  elevation_updated := false
  in_flowdir := FlowDirection.undefined
  out_flowdir := FlowDirection.single
  apply := fun i e => (i + 1, e)
  save := fun _ g _ h => (g, h)

/-- A multi-flow test operator expecting MULTI input flow: adjacent to a
SINGLE-output operator it is flow-direction incompatible. -/
def testMultiInOperator : FlowOperator Int (List Int) where
  op_name := "test_multi_in"
  graph_updated := true
  elevation_updated := false
  in_flowdir := FlowDirection.multi
  out_flowdir := FlowDirection.multi
  apply := fun i e => (i, e)
  save := fun _ g _ h => (g, h)

/-- Modelled from the spec: a `FlowSnapshot` operator named "a" with
`save_graph = true` and `save_elevation = true` — its `save` deep-copies the
current impl and the working elevation into the keyed stores it is handed
(`m_graph_impl_snapshots` and `m_elevation_snapshots`). -/
def testSnapshotOperator : FlowOperator Int (List Int) where
  op_name := "a"
  graph_updated := false
  elevation_updated := false
  in_flowdir := FlowDirection.undefined
  out_flowdir := FlowDirection.undefined
  apply := fun i e => (i, e)
  save := fun i g e h => (g ++ [("a", i)], h ++ [("a", e)])

/-- An elevation-updating test operator: adds 1 to every node of the
elevation array it is handed (as a sink resolver correcting elevation
would). -/
def testIncElevationOperator : FlowOperator Unit (List Int) where
  op_name := "test_inc_elevation"
  graph_updated := true
  elevation_updated := true
  in_flowdir := FlowDirection.undefined
  out_flowdir := FlowDirection.single
  apply := fun i e => (i, e.map (fun x => x + 1))
  save := fun _ g _ h => (g, h)

/-- The flow graph used as the concrete failing input of claim C1: a single
elevation-updating operator. -/
def incPipelineGraph : FlowGraph Unit (List Int) where
  m_impl := ()
  m_graph_snapshots := []
  m_graph_impl_snapshots := []
  m_elevation_snapshots := []
  m_operators := [testIncElevationOperator]

/-- An instrumented operator for observing the order of pipeline events: its
`apply` appends `k` to both the impl log and the elevation log, and its
`save` appends to each snapshot store the logs as they stand when it runs. -/
def logOperator (k : Nat) : FlowOperator (List Nat) (List Nat) where
  op_name := toString k
  graph_updated := true
  elevation_updated := true
  in_flowdir := FlowDirection.undefined
  out_flowdir := FlowDirection.single
  apply := fun i e => (i ++ [k], e ++ [k])
  save := fun i g e h => (g ++ [(toString k, i)], h ++ [(toString k, e)])

/-- A pipeline of `n` instrumented operators, in insertion order 0, 1, …. -/
def logPipelineGraph (n : Nat) : FlowGraph (List Nat) (List Nat) where
  m_impl := []
  m_graph_snapshots := []
  m_graph_impl_snapshots := []
  m_elevation_snapshots := []
  m_operators := (List.range n).map logOperator

/-! ### Lemmas about the operator pipeline -/

theorem runOperators_append {ι ε : Type} (ops1 ops2 : List (FlowOperator ι ε))
    (s : PipelineState ι ε) :
    runOperators (ops1 ++ ops2) s = runOperators ops2 (runOperators ops1 s) := by
  simp [runOperators, List.foldl_append]

/-- Running the instrumented pipeline from empty logs: the impl log ends as
`[0, …, n-1]` (each operator applied exactly once, in insertion order) and
the snapshot store records, for operator `k`, the impl log `[0, …, k]` as it
stood when `save` ran — after the `apply` of `k` and before the `apply` of
`k + 1`. -/
theorem runOperators_log (n : Nat) :
    runOperators ((List.range n).map logOperator) ([], [], [], []) =
      (List.range n, List.range n,
        (List.range n).map (fun k => (toString k, List.range (k + 1))),
        (List.range n).map (fun k => (toString k, List.range (k + 1)))) := by
  induction n with
  | zero => rfl
  | succ n ih =>
    rw [List.range_succ, List.map_append, runOperators_append, ih]
    simp [runOperators, pipelineStep, logOperator, List.range_succ]

theorem seqGraphUpdated_eq_false_iff {ι ε : Type} (ops : List (FlowOperator ι ε)) :
    seqGraphUpdated ops = false ↔ ∀ op ∈ ops, op.graph_updated = false := by
  simp [seqGraphUpdated, List.any_eq_false]

theorem seqOutFlowdir_foldl {ι ε : Type} (ops : List (FlowOperator ι ε)) :
    ∀ cur,
      ops.foldl
          (fun c op => if op.out_flowdir = FlowDirection.undefined then c else op.out_flowdir)
          cur = FlowDirection.undefined ↔
        (cur = FlowDirection.undefined ∧ ∀ op ∈ ops, op.out_flowdir = FlowDirection.undefined) := by
  induction ops with
  | nil => intro cur; simp
  | cons a l ih =>
    intro cur
    simp only [List.foldl_cons, List.mem_cons]
    rw [ih]
    by_cases ha : a.out_flowdir = FlowDirection.undefined
    · rw [if_pos ha]
      constructor
      · rintro ⟨h1, h2⟩
        refine ⟨h1, fun op hop => ?_⟩
        rcases hop with h | h
        · rw [h]
          exact ha
        · exact h2 op h
      · rintro ⟨h1, h2⟩
        exact ⟨h1, fun op hop => h2 op (Or.inr hop)⟩
    · rw [if_neg ha]
      constructor
      · rintro ⟨h1, _⟩
        exact absurd h1 ha
      · rintro ⟨_, h2⟩
        exact absurd (h2 a (Or.inl rfl)) ha

theorem seqOutFlowdir_eq_undefined_iff {ι ε : Type} (ops : List (FlowOperator ι ε)) :
    seqOutFlowdir ops = FlowDirection.undefined ↔
      ∀ op ∈ ops, op.out_flowdir = FlowDirection.undefined := by
  unfold seqOutFlowdir
  rw [seqOutFlowdir_foldl]
  simp

/-- Removing the head of an operator list preserves adjacent-pair validity. -/
theorem pairsCompatible_tail {ι ε : Type} (x : FlowOperator ι ε)
    (l : List (FlowOperator ι ε)) (h : pairsCompatible (x :: l) = true) :
    pairsCompatible l = true := by
  rcases l with _ | ⟨y, rest⟩
  · rfl
  · exact (Bool.and_eq_true _ _ |>.mp h).2

/-- If an operator list validates, every adjacent pair in it is
flow-direction compatible. -/
theorem pairsCompatible_adjacent {ι ε : Type} :
    ∀ (pre : List (FlowOperator ι ε)) a b post,
      pairsCompatible (pre ++ a :: b :: post) = true → flowdirCompatible a b = true := by
  intro pre
  induction pre with
  | nil =>
    intro a b post h
    exact (Bool.and_eq_true _ _ |>.mp h).1
  | cons p pre ih =>
    intro a b post h
    exact ih a b post (pairsCompatible_tail p (pre ++ a :: b :: post) h)

/-! ### Claim theorems for the flow-graph pipeline -/

/--
Claim C1 concerns code that contradicts its own comments: in the source,
`update_routes` binds `elevation_copy` directly to the caller's array — the
copy announced by the comment "reset hydrologically corrected elevation" is
a bare `TODO: copy elevation values` — and ends with `return elevation`.
First conjunct: for every flow graph and elevation input, the returned array
and the caller's buffer after the call are the same array (no owned working
buffer exists).  Remaining conjuncts evaluate the failing input: a pipeline
whose single operator updates elevation (`elevation_updated = true`, adding 1
to every node) run on the input `[0]` leaves the caller's buffer at `[1]`,
although the claim promises the input array is left unmodified.
-/
theorem c1_update_routes_mutates_callers_array :
    (∀ (ι ε : Type) (fg : FlowGraph ι ε) (e : ε),
        (updateRoutes fg e).returned = (updateRoutes fg e).caller_buffer) ∧
    seqElevationUpdated incPipelineGraph.m_operators = true ∧
    (updateRoutes incPipelineGraph [0]).caller_buffer = [1] ∧
    (updateRoutes incPipelineGraph [0]).returned = [1] ∧
    ([1] : List Int) ≠ [0] := by
  refine ⟨fun ι ε fg e => rfl, rfl, rfl, rfl, by decide⟩

/--
Claim C2: the `flow_graph` constructor throws `std::invalid_argument` when no
operator updates the flow graph, or when the resulting output flow direction
of the sequence is UNDEFINED; when an operator updates the graph and an
operator defines a non-UNDEFINED output flow direction, construction
succeeds (the constructor performs no other check).
-/
theorem c2_flow_graph_ctor_validation {ι ε : Type} (impl : ι)
    (ops : List (FlowOperator ι ε)) :
    ((∀ op ∈ ops, op.graph_updated = false) →
      flowGraphCtor impl ops =
        Except.error "must have at least one operator that updates the flow graph") ∧
    ((∀ op ∈ ops, op.out_flowdir = FlowDirection.undefined) →
      ∃ msg, flowGraphCtor impl ops = Except.error msg) ∧
    ((∃ op ∈ ops, op.graph_updated = true) →
      (∃ op ∈ ops, op.out_flowdir ≠ FlowDirection.undefined) →
      flowGraphCtor impl ops = Except.ok
        { m_impl := impl
          m_graph_snapshots := []
          m_graph_impl_snapshots := []
          m_elevation_snapshots := []
          m_operators := ops }) := by
  refine ⟨?_, ?_, ?_⟩
  · intro h
    have hg : seqGraphUpdated ops = false := (seqGraphUpdated_eq_false_iff ops).mpr h
    simp [flowGraphCtor, hg]
  · intro h
    by_cases hg : seqGraphUpdated ops = false
    · exact ⟨"must have at least one operator that updates the flow graph",
        by simp [flowGraphCtor, hg]⟩
    · have ho : seqOutFlowdir ops = FlowDirection.undefined :=
        (seqOutFlowdir_eq_undefined_iff ops).mpr h
      exact ⟨"must have at least one operator that defines the output flow direction type",
        by simp [flowGraphCtor, hg, ho]⟩
  · rintro ⟨opg, hopg, hg⟩ ⟨opo, hopo, ho⟩
    have h1 : seqGraphUpdated ops = true := by
      simp only [seqGraphUpdated, List.any_eq_true]
      exact ⟨opg, hopg, hg⟩
    have h2 : seqOutFlowdir ops ≠ FlowDirection.undefined := by
      intro hc
      exact ho ((seqOutFlowdir_eq_undefined_iff ops).mp hc opo hopo)
    simp [flowGraphCtor, h1, h2]

/-- Witness for claim C2: a pipeline of only the snapshot operator (which
does not update the graph) is rejected, while a pipeline of the test router
(graph-updating, SINGLE output) is accepted. -/
theorem c2_flow_graph_ctor_validation_witness :
    flowGraphCtor (0 : Int) [testSnapshotOperator] =
      Except.error "must have at least one operator that updates the flow graph" ∧
    flowGraphCtor (0 : Int) [testRouterOperator] = Except.ok
      { m_impl := 0
        m_graph_snapshots := []
        m_graph_impl_snapshots := []
        m_elevation_snapshots := []
        m_operators := [testRouterOperator] } := by
  constructor
  · exact (c2_flow_graph_ctor_validation (0 : Int) [testSnapshotOperator]).1
      (fun op hop => by rw [List.mem_singleton.mp hop]; rfl)
  · exact (c2_flow_graph_ctor_validation (0 : Int) [testRouterOperator]).2.2
      ⟨testRouterOperator, List.mem_singleton.mpr rfl, rfl⟩
      ⟨testRouterOperator, List.mem_singleton.mpr rfl, by decide⟩

/--
Claim C3: building the operator sequence of a flow graph fails with an
invalid-argument error whenever some adjacent pair `(A, B)` has
`A.out_flowdir` incompatible with `B.in_flowdir` (not equal, and B does not
accept UNDEFINED).  The validation itself lives in flow_operator.hpp, which
is not among the sources, and is modelled from the spec.
-/
theorem c3_incompatible_adjacent_pair_rejected {ι ε : Type}
    (pre post : List (FlowOperator ι ε)) (a b : FlowOperator ι ε)
    (h : flowdirCompatible a b = false) :
    makeOperatorSequence (pre ++ a :: b :: post) =
      Except.error "invalid flow operator sequence: incompatible adjacent flow direction types" := by
  have hpc : pairsCompatible (pre ++ a :: b :: post) = false := by
    cases hx : pairsCompatible (pre ++ a :: b :: post) with
    | false => rfl
    | true =>
      have := pairsCompatible_adjacent pre a b post hx
      rw [h] at this
      exact absurd this (by simp)
  simp [makeOperatorSequence, hpc]

/-- Witness for claim C3: the test router produces SINGLE flow, the
multi-input operator requires MULTI flow; the pair is rejected. -/
theorem c3_incompatible_adjacent_pair_rejected_witness :
    makeOperatorSequence [testRouterOperator, testMultiInOperator] =
      Except.error "invalid flow operator sequence: incompatible adjacent flow direction types" :=
  c3_incompatible_adjacent_pair_rejected [] [] testRouterOperator testMultiInOperator
    (by decide)

/--
Claim C4 concerns code that contradicts its own comments: the constructor
comment announces "pre-allocate graph and elevation snapshots", but both
insertion statements are commented out, and the operator loop of
`update_routes` passes only `m_graph_impl_snapshots` and
`m_elevation_snapshots` to `save` — no statement in the class ever writes
`m_graph_snapshots`, the keyed store that `graph_snapshot(name)` (declared in
src/unnamed/part_007 to return a FlowGraph) reads.  First conjunct:
`update_routes` leaves `m_graph_snapshots` unchanged for every flow graph.
Remaining conjuncts evaluate the failing input: constructing a graph over
`[test router, FlowSnapshot "a"]` succeeds, and after `update_routes` the
snapshot operator's `save` has recorded the impl deep copy `("a", 1)` in the
impl store it was handed, yet `graph_snapshot "a"` on the resulting handle
finds nothing, where the claim promises a retrievable deep copy.
-/
theorem c4_graph_snapshot_store_never_populated :
    (∀ (ι ε : Type) (fg : FlowGraph ι ε) (e : ε),
        (updateRoutes fg e).graph.m_graph_snapshots = fg.m_graph_snapshots) ∧
    (∃ fg : FlowGraph Int (List Int),
      flowGraphCtor (0 : Int) [testRouterOperator, testSnapshotOperator] = Except.ok fg ∧
      (updateRoutes fg [5]).graph.m_graph_impl_snapshots = [("a", 1)] ∧
      (updateRoutes fg [5]).graph.m_elevation_snapshots = [("a", [5])] ∧
      graphSnapshot (updateRoutes fg [5]).graph "a" = none) := by
  refine ⟨fun ι ε fg e => rfl, ?_⟩
  refine ⟨_, rfl, by decide, by decide, by decide⟩

/--
Claim C5: within a single `update_routes`, the operators are each applied
exactly once, in insertion order, `apply` before `save`, and the state
(implementation, working elevation and snapshot stores) produced by operator
`i` is exactly the state handed to operator `i + 1`.  First conjunct: the
operator loop decomposes sequentially over any split of the operator list.
Second conjunct, on the instrumented pipeline of `n` logging operators run by
`update_routes` itself: the impl log and the elevation buffer end as
`[0, …, n-1]` (each operator applied once, in order, and every write visible
to the operators after it), and the snapshot stores record, for operator
`k`, the logs `[0, …, k]` as they stood when its `save` ran — after its own
`apply` and before the `apply` of operator `k + 1`.
-/
theorem c5_pipeline_applied_in_order :
    (∀ (ι ε : Type) (ops1 ops2 : List (FlowOperator ι ε)) (s : PipelineState ι ε),
        runOperators (ops1 ++ ops2) s = runOperators ops2 (runOperators ops1 s)) ∧
    (∀ n : Nat,
      (updateRoutes (logPipelineGraph n) []).graph.m_impl = List.range n ∧
      (updateRoutes (logPipelineGraph n) []).caller_buffer = List.range n ∧
      (updateRoutes (logPipelineGraph n) []).graph.m_graph_impl_snapshots =
        (List.range n).map (fun k => (toString k, List.range (k + 1))) ∧
      (updateRoutes (logPipelineGraph n) []).graph.m_elevation_snapshots =
        (List.range n).map (fun k => (toString k, List.range (k + 1)))) := by
  refine ⟨fun ι ε => @runOperators_append ι ε, fun n => ?_⟩
  have h := runOperators_log n
  simp only [updateRoutes, logPipelineGraph]
  rw [h]
  exact ⟨rfl, rfl, rfl, rfl⟩

/-! ## healpix_grid (src/include/fastscapelib/grid/healpix_grid.hpp)

The grid adapts the external healpix_cxx library.  The external
`T_Healpix_Base` object is abstracted by its node count `Npix()` and its
`neighbors(pix, result)` member, which fills 8 slots (SW, W, NW, N, NE, E,
SE, S) with pixel indices, `-1` marking a missing neighbor.  The geometric
neighbor distances (`pix2vec` plus `vec3_distance`, floating-point geometry
of the external library) are not modelled; no claim depends on them.
-/

/-- The `node_status` enumeration of grid/base.hpp. -/
inductive NodeStatus where
  | core
  | fixed_value_boundary
  | fixed_gradient_boundary
  | looped_boundary
  | ghost
deriving DecidableEq, Repr

/-- Abstraction of the external healpix_cxx `T_Healpix_Base` object: its
pixel count and its 8-slot neighbor query. -/
structure HealpixObj where
  npix : Nat
  nb : Nat → Fin 8 → Int

/--
The per-node body of `healpix_grid::set_neighbors`, as run at grid
construction: a `ghost` node is skipped by `continue`, leaving its freshly
value-initialized (zero) neighbor count — represented by the empty list;
for any other node, the slots `k = 1 .. 7` of the healpix neighbor query are
scanned (the loop starts at `k = 1`) and a neighbor is kept when its index is
greater than `-1` and its status is not `ghost`.
-/
def nodeNeighbors (ns : List NodeStatus) (hp : HealpixObj) (inode : Nat) : List Nat :=
  if ns.getD inode NodeStatus.core = NodeStatus.ghost then []
  else
    ((List.finRange 8).drop 1).filterMap (fun k =>
      if -1 < hp.nb inode k ∧
          ns.getD (hp.nb inode k).toNat NodeStatus.core ≠ NodeStatus.ghost then
        some (hp.nb inode k).toNat
      else none)

/-- Reading a map over a range with a default: in range it is the mapped
value, out of range the default. -/
theorem getD_map_range {α : Type} (f : Nat → α) (n i : Nat) (d : α) :
    ((List.range n).map f).getD i d = if i < n then f i else d := by
  rcases Nat.lt_or_ge i n with h | h
  · rw [List.getD_eq_getElem?_getD, List.getElem?_map, List.getElem?_range h]
    simp [h]
  · have hlen : ((List.range n).map f).length ≤ i := by simp [h]
    rw [List.getD_eq_getElem?_getD, List.getElem?_eq_none hlen]
    simp [Nat.not_lt.mpr h]

/-- The state of a `healpix_grid` object: the members assigned by the
constructor and by `set_nodes_status` / `set_neighbors`. -/
structure HealpixGrid where
  hp : HealpixObj
  m_radius : ℚ
  m_size : Nat
  m_shape : List Nat
  m_nodes_status : List NodeStatus
  m_neighbors_count : List Nat
  m_neighbors_indices : List (List Nat)

/-- `healpix_grid::set_neighbors()`: recompute the neighbor tables of every
node from the current node statuses. -/
def healpixSetNeighbors (g : HealpixGrid) : HealpixGrid :=
  { g with
    m_neighbors_count :=
      (List.range g.m_size).map (fun i => (nodeNeighbors g.m_nodes_status g.hp i).length)
    m_neighbors_indices :=
      (List.range g.m_size).map (nodeNeighbors g.m_nodes_status g.hp) }

/--
`healpix_grid::set_nodes_status(nodes_status)`: if the shape of the
status array differs from the grid shape `[N]`, throw
`std::invalid_argument` — the throw happens before any member is written, so
the grid state is returned unchanged alongside the error; otherwise store
the statuses and recompute the neighbors.  The result pairs the object state
after the call with the raised error, if any.
-/
def healpixSetNodesStatus (g : HealpixGrid) (nodes_status : List NodeStatus) :
    HealpixGrid × Option String :=
  if nodes_status.length ≠ g.m_size then
    (g, some "invalid shape for nodes_status array (expects shape [N] where N is the total number of nodes)")
  else
    (healpixSetNeighbors { g with m_nodes_status := nodes_status }, none)

/--
The `healpix_grid` constructor: build the healpix object, read `m_size` from
its pixel count, set the one-dimensional shape `[m_size]`, then delegate to
`set_nodes_status` (which also computes the grid node neighbors).  The node
area `4 π r² / N` is real-valued and not modelled; no claim depends on it.
-/
def healpixGridNew (hp : HealpixObj) (nodes_status : List NodeStatus) (radius : ℚ) :
    HealpixGrid × Option String :=
  healpixSetNodesStatus
    { hp := hp
      m_radius := radius
      m_size := hp.npix
      m_shape := [hp.npix]
      m_nodes_status := []
      m_neighbors_count := []
      m_neighbors_indices := [] }
    nodes_status

/-- `healpix_grid::neighbors_count_impl(idx)`. -/
def healpixNeighborsCount (g : HealpixGrid) (idx : Nat) : Nat :=
  g.m_neighbors_count.getD idx 0

/-- `healpix_grid::neighbors_indices_impl(idx)`: the first
`m_neighbors_count[idx]` stored neighbor indices of node `idx`. -/
def healpixNeighborsIndices (g : HealpixGrid) (idx : Nat) : List Nat :=
  g.m_neighbors_indices.getD idx []

/-! ### Claim theorems for healpix_grid -/

/--
Claim C6: in a healpix grid constructed from a node-status array, every
`ghost` node has neighbor count 0 (the construction loop skips it, leaving
the zero-initialized count), and no `ghost` node appears in any node's
neighbor list (the scan keeps only neighbors whose status is not `ghost`).
-/
theorem c6_ghost_nodes_have_no_neighbors (hp : HealpixObj) (ns : List NodeStatus)
    (radius : ℚ) (h : ns.length = hp.npix) :
    (∀ i, ns.getD i NodeStatus.core = NodeStatus.ghost →
      healpixNeighborsCount (healpixGridNew hp ns radius).1 i = 0) ∧
    (∀ i j, j ∈ healpixNeighborsIndices (healpixGridNew hp ns radius).1 i →
      ns.getD j NodeStatus.core ≠ NodeStatus.ghost) := by
  have hg : (healpixGridNew hp ns radius).1 =
      healpixSetNeighbors
        { hp := hp
          m_radius := radius
          m_size := hp.npix
          m_shape := [hp.npix]
          m_nodes_status := ns
          m_neighbors_count := []
          m_neighbors_indices := [] } := by
    simp [healpixGridNew, healpixSetNodesStatus, h]
  constructor
  · intro i hi
    rw [hg]
    simp only [healpixNeighborsCount, healpixSetNeighbors]
    rw [getD_map_range]
    split
    · unfold nodeNeighbors
      rw [if_pos hi]
      rfl
    · rfl
  · intro i j hj
    rw [hg] at hj
    simp only [healpixNeighborsIndices, healpixSetNeighbors] at hj
    rw [getD_map_range] at hj
    split at hj
    · unfold nodeNeighbors at hj
      split at hj
      · simp at hj
      · obtain ⟨k, _, hk⟩ := List.mem_filterMap.mp hj
        split at hk
        · rename_i hcond
          simp only [Option.some.injEq] at hk
          rw [← hk]
          exact hcond.2
        · simp at hk
    · simp at hj

/-- Witness for claim C6: a 3-pixel healpix object in which each pixel's
east slot points to the next pixel; node 1 is `ghost`.  Node 1 has count 0,
node 2 keeps neighbor 0 (`core`), node 0 drops its ghost neighbor 1. -/
theorem c6_ghost_nodes_have_no_neighbors_witness :
    healpixNeighborsCount
      (healpixGridNew
        { npix := 3, nb := fun i k => if k.val = 1 then ((i + 1) % 3 : Int) else -1 }
        [NodeStatus.core, NodeStatus.ghost, NodeStatus.core] 1).1 1 = 0 ∧
    healpixNeighborsIndices
      (healpixGridNew
        { npix := 3, nb := fun i k => if k.val = 1 then ((i + 1) % 3 : Int) else -1 }
        [NodeStatus.core, NodeStatus.ghost, NodeStatus.core] 1).1 2 = [0] :=
  ⟨(c6_ghost_nodes_have_no_neighbors
      { npix := 3, nb := fun i k => if k.val = 1 then ((i + 1) % 3 : Int) else -1 }
      [NodeStatus.core, NodeStatus.ghost, NodeStatus.core] 1 (by decide)).1 1 (by decide),
   by decide⟩

/--
Claim C7: for a healpix grid of node count `N`, `set_nodes_status` called
with a status array whose shape differs from `[N]` fails with the
invalid-argument error and leaves the grid state (stored statuses and
neighbor structures) unchanged; the constructor, which computes `N` from the
healpix object's pixel count and then calls `set_nodes_status`, fails the
same way, with the members it had initialized left untouched.
-/
theorem c7_nodes_status_shape_mismatch (g : HealpixGrid) (ns : List NodeStatus)
    (hp : HealpixObj) (radius : ℚ) :
    (ns.length ≠ g.m_size →
      healpixSetNodesStatus g ns =
        (g, some "invalid shape for nodes_status array (expects shape [N] where N is the total number of nodes)")) ∧
    (ns.length ≠ hp.npix →
      (healpixGridNew hp ns radius).2 =
        some "invalid shape for nodes_status array (expects shape [N] where N is the total number of nodes)" ∧
      (healpixGridNew hp ns radius).1.m_nodes_status = [] ∧
      (healpixGridNew hp ns radius).1.m_neighbors_count = [] ∧
      (healpixGridNew hp ns radius).1.m_neighbors_indices = []) := by
  constructor
  · intro h
    simp [healpixSetNodesStatus, h]
  · intro h
    have hg : healpixGridNew hp ns radius =
        ({ hp := hp
           m_radius := radius
           m_size := hp.npix
           m_shape := [hp.npix]
           m_nodes_status := []
           m_neighbors_count := []
           m_neighbors_indices := [] },
         some "invalid shape for nodes_status array (expects shape [N] where N is the total number of nodes)") := by
      simp [healpixGridNew, healpixSetNodesStatus, h]
    rw [hg]
    exact ⟨rfl, rfl, rfl, rfl⟩

/-- Witness for claim C7: a 2-element status array against a 3-pixel grid is
rejected with the grid state unchanged. -/
theorem c7_nodes_status_shape_mismatch_witness :
    healpixSetNodesStatus
      { hp := { npix := 3, nb := fun _ _ => -1 }
        m_radius := 1
        m_size := 3
        m_shape := [3]
        m_nodes_status := [NodeStatus.core, NodeStatus.core, NodeStatus.core]
        m_neighbors_count := [0, 0, 0]
        m_neighbors_indices := [[], [], []] }
      [NodeStatus.core, NodeStatus.core] =
      ({ hp := { npix := 3, nb := fun _ _ => -1 }
         m_radius := 1
         m_size := 3
         m_shape := [3]
         m_nodes_status := [NodeStatus.core, NodeStatus.core, NodeStatus.core]
         m_neighbors_count := [0, 0, 0]
         m_neighbors_indices := [[], [], []] },
       some "invalid shape for nodes_status array (expects shape [N] where N is the total number of nodes)") :=
  (c7_nodes_status_shape_mismatch
    { hp := { npix := 3, nb := fun _ _ => -1 }
      m_radius := 1
      m_size := 3
      m_shape := [3]
      m_nodes_status := [NodeStatus.core, NodeStatus.core, NodeStatus.core]
      m_neighbors_count := [0, 0, 0]
      m_neighbors_indices := [[], [], []] }
    [NodeStatus.core, NodeStatus.core]
    { npix := 3, nb := fun _ _ => -1 } 1).1 (by decide)

/-! ## Python flow-operator constructors (src/unnamed/part_007)

The stub file declares, for each flow operator exposed to Python, the
constructor signature with its keyword options and default values.  Numeric
defaults are modelled over `ℚ` (the stub's literal `1.0` denotes the exact
value 1).
-/

/-- The `MSTMethod` enumeration: KRUSKAL, BORUVKA. -/
inductive MSTMethod where
  | KRUSKAL
  | BORUVKA
deriving DecidableEq, Repr

/-- The `MSTRouteMethod` enumeration: BASIC, CARVE. -/
inductive MSTRouteMethod where
  | BASIC
  | CARVE
deriving DecidableEq, Repr

/-- The options stored by `SingleFlowRouter.__init__(self) -> None`: none. -/
structure SingleFlowRouterOptions where
deriving DecidableEq, Repr

/-- The options stored by
`MultiFlowRouter.__init__(self, slope_exp: float = 1.0) -> None`. -/
structure MultiFlowRouterOptions where
  slope_exp : ℚ
deriving DecidableEq, Repr

/-- The options stored by `MSTSinkResolver.__init__(self,
basin_method: MSTMethod = MSTMethod.KRUSKAL,
route_method: MSTRouteMethod = MSTRouteMethod.CARVE) -> None`. -/
structure MSTSinkResolverOptions where
  basin_method : MSTMethod
  route_method : MSTRouteMethod
deriving DecidableEq, Repr

/-- The options stored by `FlowSnapshot.__init__(self, snapshot_name: str,
save_graph: bool = True, save_elevation: bool = False) -> None`. -/
structure FlowSnapshotOptions where
  snapshot_name : String
  save_graph : Bool
  save_elevation : Bool
deriving DecidableEq, Repr

/-- `SingleFlowRouter.__init__`: takes no options. -/
def singleFlowRouterInit : SingleFlowRouterOptions := {}

/-- `MultiFlowRouter.__init__` with its declared default `slope_exp = 1.0`. -/
def multiFlowRouterInit (slope_exp : ℚ := 1) : MultiFlowRouterOptions :=
  { slope_exp := slope_exp }

/-- `MSTSinkResolver.__init__` with its declared defaults
`basin_method = KRUSKAL`, `route_method = CARVE`. -/
def mstSinkResolverInit (basin_method : MSTMethod := MSTMethod.KRUSKAL)
    (route_method : MSTRouteMethod := MSTRouteMethod.CARVE) : MSTSinkResolverOptions :=
  { basin_method := basin_method, route_method := route_method }

/-- `FlowSnapshot.__init__` with its declared defaults `save_graph = True`,
`save_elevation = False`. -/
def flowSnapshotInit (snapshot_name : String) (save_graph : Bool := true)
    (save_elevation : Bool := false) : FlowSnapshotOptions :=
  { snapshot_name := snapshot_name
    save_graph := save_graph
    save_elevation := save_elevation }

/--
Claim C8: the public flow-operator constructors recognize exactly the
specified options with the specified defaults — SingleFlowRouter has no
options (all its option records are equal); MultiFlowRouter has the single
option `slope_exp` defaulting to 1.0; MSTSinkResolver has `basin_method`
ranging over exactly KRUSKAL and BORUVKA and `route_method` over exactly
BASIC and CARVE; FlowSnapshot has a snapshot name plus `save_graph`
defaulting to true and `save_elevation` defaulting to false.
-/
theorem c8_operator_constructor_options :
    (∀ a b : SingleFlowRouterOptions, a = b) ∧
    multiFlowRouterInit = { slope_exp := 1 } ∧
    (∀ q : ℚ, (multiFlowRouterInit q).slope_exp = q) ∧
    (∀ m : MSTMethod, m = MSTMethod.KRUSKAL ∨ m = MSTMethod.BORUVKA) ∧
    (∀ r : MSTRouteMethod, r = MSTRouteMethod.BASIC ∨ r = MSTRouteMethod.CARVE) ∧
    (∀ m r, (mstSinkResolverInit m r).basin_method = m ∧
      (mstSinkResolverInit m r).route_method = r) ∧
    (∀ name, flowSnapshotInit name =
      { snapshot_name := name, save_graph := true, save_elevation := false }) := by
  refine ⟨fun a b => rfl, rfl, fun q => rfl, ?_, ?_, fun m r => ⟨rfl, rfl⟩, fun name => rfl⟩
  · intro m
    cases m
    · exact Or.inl rfl
    · exact Or.inr rfl
  · intro r
    cases r
    · exact Or.inl rfl
    · exact Or.inr rfl

end Fastscapelib
